import Mathlib

set_option maxRecDepth 40000

/-!
Shallow embedding of the CFO Change Monitor (src/cfo_monitor.py).

Strings are modelled by Lean strings over their character lists. The three
Python regular expressions of the name extractor are modelled by hand, with
leftmost search, greedy quantifiers and the backtracking that these
particular patterns allow. Character classes follow the ASCII fragment of
Python (the repository text is ASCII). Times are modelled as integers
counting seconds; `timedelta(days=2)` is the constant 172800. Network and
SMTP transport are replaced by oracle functions and by the value the code
would submit: an `Option Email` that is `none` exactly when no mail
submission happens.
-/

namespace CFOMonitor

/-- Python whitespace characters matched by the class s (ASCII fragment). -/
def pySpaceChars : List Char := [' ', '\t', '\n', '\r', '\x0b', '\x0c']

/-- Python regex class s membership test (ASCII fragment). -/
def isPySpace (c : Char) : Bool := decide (c ∈ pySpaceChars)

/-- Python regex class w (ASCII fragment): letters, digits, underscore. -/
def isWordChar (c : Char) : Bool := c.isAlpha || c.isDigit || c == '_'

/-- Build a string from a character list. -/
def strOf (l : List Char) : String := String.mk l

/-- Python str.strip on a character list: drop whitespace from both ends. -/
def pyStripL (l : List Char) : List Char :=
  ((l.dropWhile isPySpace).reverse.dropWhile isPySpace).reverse

/-- Python str.strip. -/
def pyStrip (s : String) : String := strOf (pyStripL s.data)

/-- Python str.lower (ASCII letters). -/
def pyLower (s : String) : String := strOf (s.data.map Char.toLower)

/-- Python str.title on a character list: a letter that follows a
non-letter is uppercased, a letter that follows a letter is lowercased.
The Bool argument records whether the previous character was a letter. -/
def pyTitleGo : Bool → List Char → List Char
  | _, [] => []
  | prev, c :: cs =>
    if c.isAlpha then
      (if prev then c.toLower else c.toUpper) :: pyTitleGo true cs
    else
      c :: pyTitleGo false cs

/-- Python str.title. -/
def pyTitle (s : String) : String := strOf (pyTitleGo false s.data)

/-- Worker for Python str.split() with no separator: accumulate the current
word (reversed) and cut at whitespace runs. -/
def wsWordsGo : List Char → List Char → List (List Char)
  | [], acc => if acc.isEmpty then [] else [acc.reverse]
  | c :: cs, acc =>
    if isPySpace c then
      if acc.isEmpty then wsWordsGo cs [] else acc.reverse :: wsWordsGo cs []
    else
      wsWordsGo cs (c :: acc)

/-- Python str.split() with no separator: the list of whitespace-separated
words. -/
def wsWords (l : List Char) : List (List Char) := wsWordsGo l []

/-- Does the second list start with the first one? -/
def listStartsWith : List Char → List Char → Bool
  | [], _ => true
  | _ :: _, [] => false
  | p :: ps, c :: cs => p == c && listStartsWith ps cs

/-- Python substring test (k in s) on character lists. -/
def isSubstrL (k : List Char) : List Char → Bool
  | [] => listStartsWith k []
  | c :: cs => listStartsWith k (c :: cs) || isSubstrL k cs

/-- Python substring test (k in s). -/
def isSubstr (k s : String) : Bool := isSubstrL k.data s.data

/-- Characters before the first occurrence of k, that is s.split(k)[0]
when k occurs in s (and all of s when it does not). -/
def prefixBefore (k : List Char) : List Char → List Char
  | [] => []
  | c :: cs => if listStartsWith k (c :: cs) then [] else c :: prefixBefore k cs

/-! Regex building blocks for the three name patterns of
_extract_individual_name. The character classes of the patterns are
pairwise disjoint, so the only backtracking the patterns admit is over the
repetition count of the group (s+[A-Z][a-z]+)+, which is handled
explicitly where a tail follows the capture. -/

/-- One capitalized word, regex [A-Z][a-z]+ anchored at the head of cs;
returns the word and the rest. -/
def word? : List Char → Option (List Char × List Char)
  | [] => none
  | c :: cs =>
    if c.isUpper then
      if (cs.takeWhile Char.isLower).isEmpty then none
      else some (c :: cs.takeWhile Char.isLower, cs.dropWhile Char.isLower)
    else none

/-- One extension, regex s+[A-Z][a-z]+ anchored at the head of cs;
returns the consumed text and the rest. -/
def ext? (cs : List Char) : Option (List Char × List Char) :=
  if (cs.takeWhile isPySpace).isEmpty then none
  else
    match word? (cs.dropWhile isPySpace) with
    | some (w, rest) => some ((cs.takeWhile isPySpace) ++ w, rest)
    | none => none

/-- Snapshots of the greedy repetition (s+[A-Z][a-z]+)+ : the consumed
text after 1, 2, ... extensions, each with the remaining input, in
increasing order. The fuel is an upper bound on the repetition count. -/
def extsList : Nat → List Char → List (List Char × List Char)
  | 0, _ => []
  | n + 1, cs =>
    match ext? cs with
    | none => []
    | some (e, rest) => (e, rest) :: (extsList n rest).map (fun p => (e ++ p.1, p.2))

/-- Maximal (greedy) capture of [A-Z][a-z]+(s+[A-Z][a-z]+)+ anchored at
the head of cs. Used for patterns where nothing follows the capture. -/
def capWords? (cs : List Char) : Option (List Char) :=
  match word? cs with
  | none => none
  | some (w, rest) =>
    match (extsList rest.length rest).getLast? with
    | some (e, _) => some (w ++ e)
    | none => none

/-- The action verbs of pattern 1. -/
def p1Verbs : List String := ["appoints", "names", "hires", "welcomes"]

/-- If one of the given literals is a prefix of cs, drop it. At most one
of the alternatives can match since none is a prefix of another. -/
def verbRest? : List String → List Char → Option (List Char)
  | [], _ => none
  | v :: vs, cs =>
    if listStartsWith v.data cs then some (cs.drop v.data.length) else verbRest? vs cs

/-- Pattern 1 anchored at cs:
(?:appoints|names|hires|welcomes)s+([A-Z][a-z]+(?:s+[A-Z][a-z]+)+). -/
def p1At (cs : List Char) : Option (List Char) :=
  match verbRest? p1Verbs cs with
  | none => none
  | some rest =>
    if (rest.takeWhile isPySpace).isEmpty then none
    else capWords? (rest.dropWhile isPySpace)

/-- The role verbs closing pattern 2. -/
def p2TailVerbs : List String := ["as", "named", "appointed", "joins"]

/-- The tail of pattern 2, s+(?:as|named|appointed|joins), anchored at cs. -/
def p2Tail (cs : List Char) : Bool :=
  if (cs.takeWhile isPySpace).isEmpty then false
  else p2TailVerbs.any (fun v => listStartsWith v.data (cs.dropWhile isPySpace))

/-- Pattern 2 anchored at cs:
([A-Z][a-z]+(?:s+[A-Z][a-z]+)+)s+(?:as|named|appointed|joins).
The capture is greedy, backtracking over the number of extensions. -/
def p2At (cs : List Char) : Option (List Char) :=
  match word? cs with
  | none => none
  | some (w, rest) =>
    (extsList rest.length rest).reverse.findSome?
      (fun p => if p2Tail p.2 then some (w ++ p.1) else none)

/-- Pattern 3 anchored at cs: CFOs+([A-Z][a-z]+(?:s+[A-Z][a-z]+)+). -/
def p3At (cs : List Char) : Option (List Char) :=
  if listStartsWith "CFO".data cs then
    if ((cs.drop 3).takeWhile isPySpace).isEmpty then none
    else capWords? ((cs.drop 3).dropWhile isPySpace)
  else none

/-- re.search: try the anchored pattern at each position from the left and
return the first successful capture. -/
def searchWith (pAt : List Char → Option (List Char)) : List Char → Option (List Char)
  | [] => none
  | c :: cs =>
    match pAt (c :: cs) with
    | some cap => some cap
    | none => searchWith pAt cs

/-- re.search for pattern 1. -/
def searchP1 (cs : List Char) : Option (List Char) := searchWith p1At cs

/-- re.search for pattern 2. -/
def searchP2 (cs : List Char) : Option (List Char) := searchWith p2At cs

/-- re.search for pattern 3. -/
def searchP3 (cs : List Char) : Option (List Char) := searchWith p3At cs

/-- The false-positive blocklist of _extract_individual_name. -/
def blocklist : List String := ["Chief Financial", "Financial Officer"]

/-- The candidate filter of _extract_individual_name:
len(name.split()) >= 2 and name not in the blocklist. -/
def keepName (name : String) : Bool :=
  decide (2 ≤ (wsWords name.data).length) && !(decide (name ∈ blocklist))

/-- The pattern loop of _extract_individual_name: patterns are tried in
order; the first match of a pattern is stripped and filtered; a candidate
that fails the filter falls through to the NEXT pattern, never to a later
match of the same pattern. -/
def indivLoop : List (List Char → Option (List Char)) → List Char → Option String
  | [], _ => none
  | pAt :: ps, text =>
    match searchWith pAt text with
    | some cap =>
      if keepName (pyStrip (strOf cap)) then some (pyStrip (strOf cap))
      else indivLoop ps text
    | none => indivLoop ps text

/-- _extract_individual_name(title, summary): search the concatenation of
title, a space and summary with the three name patterns. -/
def extract_individual_name (title summary : String) : Option String :=
  indivLoop [p1At, p2At, p3At] (title ++ " " ++ summary).data

/-- The keyword list of _extract_company, in loop order. -/
def companyKeywords : List String := ["appoints", "hires", "names", "announces", "welcomes"]

/-- The fixed sentinel returned by _extract_company when it resolves
nothing. -/
def companySentinel : String := "Company in article"

/-- The keyword loop of _extract_company over the lowercased title: for
the first keyword occurring in the lowercased title with a nonempty part
before its first occurrence, return that part stripped and title-cased. -/
def companyGo : List String → String → String
  | [], _ => companySentinel
  | k :: ks, lower =>
    if isSubstr k lower then
      if strOf (prefixBefore k.data lower.data) ≠ "" then
        pyTitle (pyStrip (strOf (prefixBefore k.data lower.data)))
      else companyGo ks lower
    else companyGo ks lower

/-- _extract_company(title). -/
def extract_company (title : String) : String :=
  companyGo companyKeywords (pyLower title)

/-- One collected Finding record (the result dicts of the two sources). -/
structure Finding where
  source : String
  company : String
  title : String
  summary : String
  url : String
  date : String
  individual : Option String
deriving DecidableEq

/-- A raw SEC EDGAR feed entry after feedparser, with the dict defaults of
the code already applied to title, summary and link; published is absent
when the feed omits it. -/
structure SecEntry where
  title : String
  summary : String
  link : String
  published : Option String
deriving DecidableEq

/-- A raw Google News feed entry after feedparser; publishedParsed is the
parsed timestamp in seconds, absent when not parseable. -/
structure NewsEntry where
  title : String
  link : String
  sourceName : String
  published : Option String
  publishedParsed : Option Int
deriving DecidableEq

/-- The CFO keyword filter of search_sec_filings. -/
def cfoKeywords : List String := ["cfo", "chief financial officer", "financial officer"]

/-- Does a SEC entry pass the keyword filter? The filter lowercases the
concatenation of title, a space and summary. -/
def secKeywordHit (e : SecEntry) : Bool :=
  cfoKeywords.any (fun k => isSubstr k (pyLower (e.title ++ " " ++ e.summary)))

/-- Company derivation of search_sec_filings:
title.split('(')[0].strip() if '(' in title else title. -/
def secCompany (title : String) : String :=
  if isSubstr "(" title then pyStrip (strOf (prefixBefore "(".data title.data)) else title

/-- The result dict appended by search_sec_filings for a kept entry. -/
def mkSecFinding (e : SecEntry) : Finding :=
  { source := "SEC EDGAR"
    company := secCompany e.title
    title := e.title
    summary := strOf (e.summary.data.take 300)
    url := e.link
    date := e.published.getD "N/A"
    individual := extract_individual_name e.title e.summary }

/-- Processing of one SEC entry: append the finding when the keyword
filter hits; no deduplication happens here. -/
def secEntryStep (rs : List Finding) (e : SecEntry) : List Finding :=
  if secKeywordHit e then rs ++ [mkSecFinding e] else rs

/-- search_sec_filings over the feed entries, starting from the findings
already collected. -/
def search_sec_filings (rs : List Finding) (entries : List SecEntry) : List Finding :=
  entries.foldl secEntryStep rs

/-- timedelta(days=2) in seconds. -/
def twoDaysSeconds : Int := 172800

/-- The recency test of search_news: true exactly when the entry has a
parseable timestamp and now minus that timestamp strictly exceeds two
days. -/
def staleEntry (now : Int) (e : NewsEntry) : Bool :=
  match e.publishedParsed with
  | some t => decide (twoDaysSeconds < now - t)
  | none => false

/-- The result dict appended by search_news for a kept entry: summary is
the empty string and the individual is extracted from the title alone. -/
def mkNewsFinding (e : NewsEntry) : Finding :=
  { source := "News: " ++ e.sourceName
    company := extract_company e.title
    title := e.title
    summary := ""
    url := e.link
    date := e.published.getD "N/A"
    individual := extract_individual_name e.title "" }

/-- Processing of one news entry: skip when stale, skip when a collected
finding already carries the same url, otherwise append. -/
def newsEntryStep (now : Int) (rs : List Finding) (e : NewsEntry) : List Finding :=
  if staleEntry now e then rs
  else if rs.any (fun r => r.url == e.link) then rs
  else rs ++ [mkNewsFinding e]

/-- search_news over the per-query result batches: each query contributes
at most its first five entries, processed in order against the shared
collected list. -/
def search_news (now : Int) (rs : List Finding) (batches : List (List NewsEntry)) : List Finding :=
  batches.foldl (fun acc batch => (batch.take 5).foldl (newsEntryStep now) acc) rs

/-- The collection phase of run(): SEC first, then news, starting from an
empty list. -/
def runMonitor (now : Int) (sec : List SecEntry) (news : List (List NewsEntry)) : List Finding :=
  search_news now (search_sec_filings [] sec) news

/-- Python truthiness of an optional string: None and the empty string are
falsy. -/
def pyTruthyStrOpt : Option String → Bool
  | none => false
  | some s => !s.isEmpty

/-- Python str() of an optional string as an f-string renders it: None
becomes the text None. -/
def pyStrOfOpt : Option String → String
  | some s => s
  | none => "None"

/-- Characters kept by re.sub removing the class complementary to w, s
and hyphen. -/
def keepChar (c : Char) : Bool := isWordChar c || isPySpace c || c == '-'

/-- The space replacement of _sanitize_filename: only the plain space
character becomes an underscore. -/
def spaceToUnderscore (c : Char) : Char := if c == ' ' then '_' else c

/-- _sanitize_filename(name):
re.sub removing characters outside w, s and hyphen, then strip, then
replace spaces by underscores, then truncate to 50 characters. -/
def sanitize_filename (name : String) : String :=
  strOf (((pyStripL (name.data.filter keepChar)).map spaceToUnderscore).take 50)

/-- One generated tear sheet dict. -/
structure TearSheet where
  sheetType : String
  company : String
  individual : Option String
  document : String
  filename : String
deriving DecidableEq

/-- One enrichment step of generate_tear_sheets for one finding: always
one company API call, and one individual API call when the finding has a
truthy individual. The oracles genC and genI stand for the two API
helpers; none models a failed call. The Nat counts API call attempts. -/
def tearStep (genC genI : Finding → Option String) (acc : List TearSheet × Nat)
    (r : Finding) : List TearSheet × Nat :=
  let afterCompany : List TearSheet × Nat :=
    match genC r with
    | some doc =>
      (acc.1 ++ [{ sheetType := "company", company := r.company, individual := none,
                   document := doc,
                   filename := sanitize_filename r.company ++ "_Company_TearSheet.docx" }],
       acc.2 + 1)
    | none => (acc.1, acc.2 + 1)
  if pyTruthyStrOpt r.individual then
    match genI r with
    | some doc =>
      (afterCompany.1 ++ [{ sheetType := "individual", company := r.company,
                            individual := r.individual, document := doc,
                            filename := sanitize_filename (r.individual.getD "") ++
                              "_Individual_TearSheet.docx" }],
       afterCompany.2 + 1)
    | none => (afterCompany.1, afterCompany.2 + 1)
  else afterCompany

/-- generate_tear_sheets: returns the produced sheets and the number of
NarrativeGenerator call attempts. With a falsy API key it returns at once,
producing nothing and calling nothing. -/
def generate_tear_sheets (apiKey : Option String) (results : List Finding)
    (genC genI : Finding → Option String) : List TearSheet × Nat :=
  if pyTruthyStrOpt apiKey then results.foldl (tearStep genC genI) ([], 0) else ([], 0)

/-- Number of distinct companies, len(set(...)). -/
def numCompanies (rs : List Finding) : Nat := ((rs.map Finding.company).eraseDups).length

/-- Number of findings with a truthy individual. -/
def numIndividuals (rs : List Finding) : Nat :=
  (rs.filter (fun r => pyTruthyStrOpt r.individual)).length

/-- Number of SEC findings. -/
def numSec (rs : List Finding) : Nat :=
  (rs.filter (fun r => r.source == "SEC EDGAR")).length

/-- Number of news findings, source.startswith(News). -/
def numNews (rs : List Finding) : Nat :=
  (rs.filter (fun r => listStartsWith "News".data r.source.data)).length

/-- The per-finding list line of _create_email_body. The individual slot
renders result.get with a default that never fires, because the key is
always present: an absent extraction is the value None and the f-string
renders the text None. -/
def finding_line (r : Finding) : String :=
  "<li><strong>" ++ r.company ++ "</strong> - " ++ pyStrOfOpt r.individual ++ "</li>"

/-- The HTML of _create_email_body before the per-finding list. -/
def bodyHeader (results : List Finding) (tearSheets : List TearSheet) (dateStr : String) : String :=
  "\n<html>\n<head>\n<style>\n" ++
  "body \x7b font-family: Arial, sans-serif; line-height: 1.6; color: #333; \x7d\n" ++
  ".summary \x7b background-color: #ecf0f1; padding: 20px; margin: 20px 0; border-radius: 5px; \x7d\n" ++
  ".highlight \x7b color: #2c3e50; font-weight: bold; \x7d\n" ++
  "ul \x7b margin: 10px 0; \x7d\n" ++
  "li \x7b margin: 5px 0; \x7d\n" ++
  "</style>\n</head>\n<body>\n<div class=\"summary\">\n" ++
  "<h2>CFO Changes Summary - " ++ dateStr ++ "</h2>\n" ++
  "<p>Our automated monitoring system has identified <span class=\"highlight\">" ++
  toString results.length ++ " CFO-related changes</span> across <span class=\"highlight\">" ++
  toString (numCompanies results) ++ " companies</span> in the past 24 hours. We found " ++
  toString (numSec results) ++ " official SEC filings and " ++ toString (numNews results) ++
  " news articles reporting these executive movements. Detailed company and individual tear sheets are attached as Word documents for your review and analysis. Please see the attachments for comprehensive research on each identified change.</p>\n" ++
  "<h3>Quick Stats:</h3>\n<ul>\n" ++
  "<li><strong>Total Findings:</strong> " ++ toString results.length ++ "</li>\n" ++
  "<li><strong>Companies Affected:</strong> " ++ toString (numCompanies results) ++ "</li>\n" ++
  "<li><strong>SEC Filings:</strong> " ++ toString (numSec results) ++ "</li>\n" ++
  "<li><strong>News Articles:</strong> " ++ toString (numNews results) ++ "</li>\n" ++
  "<li><strong>Tear Sheets Generated:</strong> " ++ toString tearSheets.length ++ "</li>\n" ++
  "</ul>\n<h3>Identified Changes:</h3>\n<ul>\n"

/-- The HTML of _create_email_body after the per-finding list. -/
def bodyFooter : String := "\n</ul>\n</div>\n</body>\n</html>\n"

/-- _create_email_body: header, one list line per finding, footer. -/
def create_email_body (results : List Finding) (tearSheets : List TearSheet)
    (dateStr : String) : String :=
  bodyHeader results tearSheets dateStr ++ String.join (results.map finding_line) ++ bodyFooter

/-- The message that send_email would submit. -/
structure Email where
  subject : String
  sender : String
  recipient : String
  body : String
  attachments : List String
deriving DecidableEq

/-- send_email: with zero findings it returns before building or sending
anything; otherwise it submits one multipart message whose attachments are
the tear sheet filenames. -/
def send_email (results : List Finding) (sheets : List TearSheet)
    (emailFrom emailTo dateStr : String) : Option Email :=
  if results.isEmpty then none
  else some
    { subject := "CFO Changes Alert - " ++ dateStr ++ " (" ++ toString results.length ++
        " findings)"
      sender := emailFrom
      recipient := emailTo
      body := create_email_body results sheets dateStr
      attachments := sheets.map TearSheet.filename }

/-- The tear sheet phase of run(): generate_tear_sheets is called only
when findings exist. -/
def runSheets (apiKey : Option String) (results : List Finding)
    (genC genI : Finding → Option String) : List TearSheet :=
  if results.isEmpty then [] else (generate_tear_sheets apiKey results genC genI).1

/-- run(): collect findings, optionally enrich, then send; the value is
the complete observable outcome of a run. -/
def run (now : Int) (sec : List SecEntry) (news : List (List NewsEntry))
    (apiKey : Option String) (genC genI : Finding → Option String)
    (emailFrom emailTo dateStr : String) :
    List Finding × List TearSheet × Option Email :=
  (runMonitor now sec news,
   runSheets apiKey (runMonitor now sec news) genC genI,
   send_email (runMonitor now sec news)
     (runSheets apiKey (runMonitor now sec news) genC genI) emailFrom emailTo dateStr)

/-- An oracle standing for an enrichment backend that always fails. -/
def noGen : Finding → Option String := fun _ => none

/-- A SEC entry whose duplicate exercises the missing SEC-side
deduplication. -/
def secDup : SecEntry :=
  { title := "Acme cfo", summary := "", link := "u", published := none }

/-- A finding with no extracted individual, for the report body. -/
def findingNoName : Finding :=
  { source := "News: Reuters", company := "Acme", title := "XYZ Files Report",
    summary := "", url := "u1", date := "N/A", individual := none }

/-- A news title whose first pattern-1 match is blocklisted while a later
pattern-1 match would survive the filter. -/
def trickyTitle : String := "Acme names Chief Financial boss, hires Jane Smith"

/-- A 51-character name whose tab survives sanitization and lands at the
truncation boundary. -/
def tabName : String :=
  "aaaaaaaaaaaaaaaaaaaaaaaaaaaaaaaaaaaaaaaaaaaaaaaaa\tb"

/-- A news entry with a parseable timestamp at epoch 0. -/
def entryOld : NewsEntry :=
  { title := "t", link := "u2", sourceName := "S", published := none,
    publishedParsed := some 0 }

end CFOMonitor

namespace CFOMonitor

/-! Generic helper lemmas about list operations, proved here to keep the
development self-contained. -/

theorem length_take_le (n : Nat) (l : List Char) : (l.take n).length ≤ n := by
  induction n generalizing l with
  | zero => simp
  | succ n ih =>
    cases l with
    | nil => simp
    | cons c cs =>
      rw [List.take_succ_cons, List.length_cons]
      exact Nat.succ_le_succ (ih cs)

theorem mem_of_mem_take {α : Type} {c : α} {n : Nat} {l : List α}
    (h : c ∈ l.take n) : c ∈ l := by
  induction n generalizing l with
  | zero => simp at h
  | succ n ih =>
    cases l with
    | nil => simp at h
    | cons a l =>
      rw [List.take_succ_cons] at h
      rcases List.mem_cons.mp h with h | h
      · exact h ▸ List.mem_cons_self a l
      · exact List.mem_cons_of_mem a (ih h)

theorem mem_of_mem_dropWhile {p : Char → Bool} {c : Char} {l : List Char}
    (h : c ∈ l.dropWhile p) : c ∈ l := by
  induction l with
  | nil => exact h
  | cons a l ih =>
    rw [List.dropWhile_cons] at h
    split at h
    · exact List.mem_cons_of_mem a (ih h)
    · exact h

theorem dropWhile_eq_self {p : Char → Bool} {l : List Char}
    (h : ∀ c ∈ l, p c = false) : l.dropWhile p = l := by
  cases l with
  | nil => rfl
  | cons c cs => rw [List.dropWhile_cons, h c (List.mem_cons_self c cs)]; simp

theorem filter_eq_self_of {p : Char → Bool} {l : List Char}
    (h : ∀ c ∈ l, p c = true) : l.filter p = l := by
  induction l with
  | nil => rfl
  | cons c cs ih =>
    rw [List.filter_cons, h c (List.mem_cons_self c cs)]
    simp only [if_true]
    rw [ih (fun d hd => h d (List.mem_cons_of_mem c hd))]

theorem map_eq_self_of {f : Char → Char} {l : List Char}
    (h : ∀ c ∈ l, f c = c) : l.map f = l := by
  induction l with
  | nil => rfl
  | cons c cs ih =>
    rw [List.map_cons, h c (List.mem_cons_self c cs),
      ih (fun d hd => h d (List.mem_cons_of_mem c hd))]

theorem mem_of_mem_pyStripL {c : Char} {l : List Char} (h : c ∈ pyStripL l) : c ∈ l := by
  unfold pyStripL at h
  rw [List.mem_reverse] at h
  have h2 := mem_of_mem_dropWhile h
  rw [List.mem_reverse] at h2
  exact mem_of_mem_dropWhile h2

theorem pyStripL_eq_self {l : List Char} (h : ∀ c ∈ l, isPySpace c = false) :
    pyStripL l = l := by
  unfold pyStripL
  rw [dropWhile_eq_self h,
    dropWhile_eq_self (fun c hc => h c (List.mem_reverse.mp hc)),
    List.reverse_reverse]

theorem not_space_of_word {c : Char} (h : isWordChar c = true ∨ c = '-') :
    isPySpace c = false := by
  cases hb : isPySpace c with
  | false => rfl
  | true =>
    have hmem : c ∈ pySpaceChars := of_decide_eq_true hb
    fin_cases hmem <;> exact absurd h (by decide)

/-! Structural lemmas about the pipeline. -/

theorem search_sec_eq (entries : List SecEntry) (rs : List Finding) :
    search_sec_filings rs entries = rs ++ (entries.filter secKeywordHit).map mkSecFinding := by
  induction entries generalizing rs with
  | nil => simp [search_sec_filings]
  | cons e es ih =>
    show es.foldl secEntryStep (secEntryStep rs e) = _
    rw [show es.foldl secEntryStep (secEntryStep rs e) =
      search_sec_filings (secEntryStep rs e) es from rfl, ih]
    unfold secEntryStep
    by_cases h : secKeywordHit e = true
    · rw [if_pos h, List.filter_cons_of_pos h, List.map_cons, List.append_assoc,
        List.singleton_append]
    · rw [if_neg h, List.filter_cons_of_neg (by simpa using h)]

theorem newsEntryStep_nodup (now : Int) (rs : List Finding) (e : NewsEntry)
    (h : (rs.map Finding.url).Nodup) :
    ((newsEntryStep now rs e).map Finding.url).Nodup := by
  unfold newsEntryStep
  by_cases hst : staleEntry now e = true
  · rw [if_pos hst]; exact h
  · rw [if_neg hst]
    by_cases hdup : rs.any (fun r => r.url == e.link) = true
    · rw [if_pos hdup]; exact h
    · rw [if_neg hdup, List.map_append]
      have hnot : e.link ∉ rs.map Finding.url := by
        intro hmem
        rcases List.mem_map.mp hmem with ⟨r, hr, hurl⟩
        exact hdup (List.any_eq_true.mpr ⟨r, hr, by simp [hurl]⟩)
      refine List.Nodup.append h (List.nodup_singleton _) ?_
      intro a ha hb
      rw [List.mem_map] at hb
      rcases hb with ⟨f, hf, hfa⟩
      rw [List.mem_singleton] at hf
      subst hf
      exact hnot ((show (mkNewsFinding e).url = e.link from rfl) ▸ hfa ▸ ha)

theorem newsFold_nodup (now : Int) (es : List NewsEntry) (rs : List Finding)
    (h : (rs.map Finding.url).Nodup) :
    ((es.foldl (newsEntryStep now) rs).map Finding.url).Nodup := by
  induction es generalizing rs with
  | nil => exact h
  | cons e es ih => exact ih _ (newsEntryStep_nodup now rs e h)

theorem search_news_nodup (now : Int) (batches : List (List NewsEntry)) (rs : List Finding)
    (h : (rs.map Finding.url).Nodup) :
    ((search_news now rs batches).map Finding.url).Nodup := by
  induction batches generalizing rs with
  | nil => exact h
  | cons b bs ih => exact ih _ (newsFold_nodup now (b.take 5) rs h)

theorem newsEntryStep_of_seen (now : Int) (rs : List Finding) (e : NewsEntry)
    (h : e.link ∈ rs.map Finding.url) : newsEntryStep now rs e = rs := by
  unfold newsEntryStep
  by_cases hst : staleEntry now e = true
  · rw [if_pos hst]
  · rw [if_neg hst]
    rcases List.mem_map.mp h with ⟨r, hr, hurl⟩
    rw [if_pos (List.any_eq_true.mpr ⟨r, hr, by simp [hurl]⟩)]

/-! Claim theorems. -/

/-- Claim C5 (confirmed): if zero Findings are collected during a run, the
Mailer boundary is never invoked: send_email returns before any SMTP work,
modelled as a submitted message of none, and the run completes normally
with empty results and zero tear sheets. -/
theorem C5_thm (now : Int) (sec : List SecEntry) (news : List (List NewsEntry))
    (apiKey : Option String) (genC genI : Finding → Option String)
    (emailFrom emailTo dateStr : String)
    (h : runMonitor now sec news = []) :
    run now sec news apiKey genC genI emailFrom emailTo dateStr = ([], [], none) := by
  unfold run runSheets send_email
  rw [h]
  simp

/-- Witness for C5 at a concrete run with empty feeds. -/
theorem C5_witness :
    run 0 [] [] none noGen noGen "from@x" "to@x" "July 1, 2025" = ([], [], none) :=
  C5_thm 0 [] [] none noGen noGen "from@x" "to@x" "July 1, 2025" rfl

/-- Claim C6 (confirmed): with no enrichment API key configured,
generate_tear_sheets short-circuits, producing zero tear sheets and zero
NarrativeGenerator call attempts, and a full run with no key carries zero
tear sheets while still completing. -/
theorem C6_thm (results : List Finding) (genC genI : Finding → Option String) :
    generate_tear_sheets none results genC genI = ([], 0) ∧
    (∀ (now : Int) (sec : List SecEntry) (news : List (List NewsEntry))
      (emailFrom emailTo dateStr : String),
      (run now sec news none genC genI emailFrom emailTo dateStr).2.1 = []) := by
  constructor
  · rfl
  · intro now sec news emailFrom emailTo dateStr
    unfold run runSheets
    by_cases h : (runMonitor now sec news).isEmpty = true
    · simp [h]
    · simp [h, generate_tear_sheets, pyTruthyStrOpt]

/-- Claim C7 (confirmed): a news entry is dropped by the recency filter
exactly when it carries a parseable published timestamp strictly older
than two days at scan time; an entry with no parseable timestamp passes
the recency filter and is subject only to the deduplication filter. -/
theorem C7_thm (now : Int) (rs : List Finding) (e : NewsEntry) :
    (staleEntry now e = true ↔
      ∃ t, e.publishedParsed = some t ∧ twoDaysSeconds < now - t) ∧
    (e.publishedParsed = none → staleEntry now e = false) ∧
    (staleEntry now e = false → newsEntryStep now rs e =
      if rs.any (fun r => r.url == e.link) then rs else rs ++ [mkNewsFinding e]) ∧
    (staleEntry now e = true → newsEntryStep now rs e = rs) := by
  refine ⟨?_, ?_, ?_, ?_⟩
  · cases hp : e.publishedParsed with
    | none => simp [staleEntry, hp]
    | some t =>
      simp only [staleEntry, hp]
      constructor
      · intro hd
        exact ⟨t, rfl, of_decide_eq_true hd⟩
      · rintro ⟨t2, ht2, hlt⟩
        cases ht2
        exact decide_eq_true hlt
  · intro hp; simp [staleEntry, hp]
  · intro hst
    unfold newsEntryStep
    rw [if_neg (by simp [hst])]
  · intro hst
    unfold newsEntryStep
    rw [if_pos hst]

/-- Witness for C7: a concrete entry one second past the threshold is
stale. -/
theorem C7_witness : staleEntry 172801 entryOld = true :=
  (C7_thm 172801 [] entryOld).1.mpr ⟨0, rfl, by decide⟩

/-- Claim C10 (confirmed): a finding appended by the SEC source stores the
first 300 characters of the raw summary, hence at most 300 characters, and
SEC processing either drops an entry or appends exactly that finding; a
finding appended by the news source stores the empty summary and its
individual is extracted from the title alone, and news processing either
drops an entry or appends exactly that finding. -/
theorem C10_thm (e : SecEntry) (e2 : NewsEntry) (rs : List Finding) (now : Int) :
    (mkSecFinding e).summary = strOf (e.summary.data.take 300) ∧
    (mkSecFinding e).summary.length ≤ 300 ∧
    (secEntryStep rs e = rs ∨ secEntryStep rs e = rs ++ [mkSecFinding e]) ∧
    (mkNewsFinding e2).summary = "" ∧
    (mkNewsFinding e2).individual = extract_individual_name e2.title "" ∧
    (newsEntryStep now rs e2 = rs ∨ newsEntryStep now rs e2 = rs ++ [mkNewsFinding e2]) := by
  refine ⟨rfl, ?_, ?_, rfl, rfl, ?_⟩
  · exact length_take_le 300 e.summary.data
  · unfold secEntryStep
    by_cases h : secKeywordHit e = true
    · right; rw [if_pos h]
    · left; rw [if_neg h]
  · unfold newsEntryStep
    by_cases hst : staleEntry now e2 = true
    · left; rw [if_pos hst]
    · rw [if_neg hst]
      by_cases hdup : rs.any (fun r => r.url == e2.link) = true
      · left; rw [if_pos hdup]
      · right; rw [if_neg hdup]

end CFOMonitor

namespace CFOMonitor

/-- Claim C1 (corrected) counterexample: the SEC source performs no url
deduplication, so a feed repeating a link yields two findings with the
same url in the final collected list. -/
theorem C1_cex :
    ((runMonitor 0 [secDup, secDup] []).map Finding.url) = ["u", "u"] ∧
    ¬ ((runMonitor 0 [secDup, secDup] []).map Finding.url).Nodup := by
  refine ⟨by decide, by decide⟩

/-- Claim C1 (corrected): news candidates are deduplicated by url against
every already collected finding, first seen wins; SEC entries are appended
with no url check, so distinct urls in the final list are guaranteed only
when the keyword-accepted SEC entries carry pairwise distinct links. -/
theorem C1_amended (now : Int) (sec : List SecEntry) (news : List (List NewsEntry))
    (h : ((sec.filter secKeywordHit).map SecEntry.link).Nodup) :
    ((runMonitor now sec news).map Finding.url).Nodup ∧
    ∀ (rs : List Finding) (e : NewsEntry),
      e.link ∈ rs.map Finding.url → newsEntryStep now rs e = rs := by
  constructor
  · apply search_news_nodup
    rw [search_sec_eq, List.nil_append, List.map_map]
    exact (show (Finding.url ∘ mkSecFinding) = SecEntry.link from funext (fun e => rfl)) ▸ h
  · exact newsEntryStep_of_seen now

/-- Witness for C1 at a concrete single-entry SEC feed. -/
theorem C1_witness : ((runMonitor 0 [secDup] []).map Finding.url).Nodup :=
  (C1_amended 0 [secDup] [] (by decide)).1

/-- Claim C2 (corrected) counterexample: on the title with no real name
the greedy pattern captures the full three-word phrase, which is not in
the two-entry blocklist, so the extractor returns it instead of absent. -/
theorem C2_cex :
    extract_individual_name "Acme names Chief Financial Officer" "" =
      some "Chief Financial Officer" := by decide

/-- Claim C9 (corrected) counterexample: on a title that starts with a
verb, the part before the verb is empty and therefore falsy, so the code
falls through to the sentinel instead of returning the trimmed
title-cased empty prefix. -/
theorem C9_cex :
    extract_company "Appoints CFO" = companySentinel ∧
    companySentinel ≠ pyTitle (pyStrip "") := by
  refine ⟨by decide, by decide⟩

/-- Claim C8 (corrected) counterexample: the text contains a
filter-surviving pattern-1 match (hires Jane Smith, visible as the
leftmost pattern-1 match of the suffix starting at index 33), but the
first pattern-1 match of the whole text is the blocklisted capture, so the
extractor abandons pattern 1 entirely and returns absent. -/
theorem C8_cex :
    extract_individual_name trickyTitle "" = none ∧
    searchP1 (trickyTitle.data.drop 33) = some "Jane Smith".data ∧
    keepName "Jane Smith" = true := by
  refine ⟨by decide, by decide, by decide⟩

/-- Claim C4 (corrected) counterexample: a tab is whitespace, so the
substitution keeps it and the space replacement does not touch it; an
inner tab thus survives sanitization, violating the output character
claim, and a tab placed at the truncation boundary defeats idempotence
because the second strip removes it. -/
theorem C4_cex :
    sanitize_filename (sanitize_filename tabName) ≠ sanitize_filename tabName ∧
    '\t' ∈ (sanitize_filename "a\tb").data ∧
    isWordChar '\t' = false ∧ ('\t' : Char) ≠ '-' ∧ ('\t' : Char) ≠ '_' := by
  refine ⟨by decide, by decide, by decide, by decide, by decide⟩

/-- Claim C3 (code_bug): the per-finding list line of the report body
renders the text None for a finding whose individual is absent, because
the dict lookup default never fires; the placeholder text never occurs in
the assembled body. -/
theorem C3_bug :
    finding_line findingNoName = "<li><strong>Acme</strong> - None</li>" ∧
    isSubstr "<li><strong>Acme</strong> - None</li>"
      (create_email_body [findingNoName] [] "July 1, 2025") = true ∧
    isSubstr "Individual name not identified"
      (create_email_body [findingNoName] [] "July 1, 2025") = false := by
  refine ⟨rfl, by decide, by decide⟩

end CFOMonitor

namespace CFOMonitor

theorem indivLoop_filter (ps : List (List Char → Option (List Char))) (text : List Char) :
    indivLoop ps text = none ∨
    ∃ name, indivLoop ps text = some name ∧ keepName name = true := by
  induction ps with
  | nil => exact Or.inl rfl
  | cons p ps ih =>
    cases h : searchWith p text with
    | none =>
      simp only [indivLoop, h]
      exact ih
    | some cap =>
      by_cases hk : keepName (pyStrip (strOf cap)) = true
      · exact Or.inr ⟨_, by simp only [indivLoop, h, if_pos hk], hk⟩
      · simp only [indivLoop, h, if_neg hk]
        exact ih

/-- Claim C2 (corrected): every candidate returned by the extractor has at
least two words and is not a blocklisted phrase, and the result is absent
when no surviving candidate exists; but on the title with no real name the
greedy capture is the full phrase Chief Financial Officer, which the
two-entry blocklist does not reject, so the extractor returns it rather
than absent. -/
theorem C2_amended (title summary : String) :
    (extract_individual_name title summary = none ∨
      ∃ name, extract_individual_name title summary = some name ∧
        2 ≤ (wsWords name.data).length ∧ name ∉ blocklist) ∧
    extract_individual_name "Acme names Chief Financial Officer" "" =
      some "Chief Financial Officer" := by
  constructor
  · rcases indivLoop_filter [p1At, p2At, p3At] (title ++ " " ++ summary).data with
      h | ⟨name, h, hk⟩
    · exact Or.inl h
    · have hk2 : 2 ≤ (wsWords name.data).length ∧ name ∉ blocklist := by
        simpa [keepName] using hk
      exact Or.inr ⟨name, h, hk2.1, hk2.2⟩
  · decide

/-- Claim C8 (corrected): when the FIRST pattern-1 match of the
concatenated text survives the filter, the extractor returns it, whatever
patterns 2 and 3 would match; the example title yields Jane Smith. A
filter-surviving pattern-1 match elsewhere in the text does not suffice,
as the counterexample shows. -/
theorem C8_amended (title summary : String) (cap : List Char)
    (h1 : searchP1 (title ++ " " ++ summary).data = some cap)
    (h2 : keepName (pyStrip (strOf cap)) = true) :
    extract_individual_name title summary = some (pyStrip (strOf cap)) ∧
    extract_individual_name "Acme Corp appoints Jane Smith as CFO" "" =
      some "Jane Smith" := by
  refine ⟨?_, by decide⟩
  have h1w : searchWith p1At (title ++ " " ++ summary).data = some cap := h1
  show indivLoop [p1At, p2At, p3At] (title ++ " " ++ summary).data = _
  simp only [indivLoop, h1w, if_pos h2]

/-- Witness for C8 at the example title. -/
theorem C8_witness :
    extract_individual_name "Acme Corp appoints Jane Smith as CFO" "" =
      some (pyStrip (strOf "Jane Smith".data)) :=
  (C8_amended "Acme Corp appoints Jane Smith as CFO" "" "Jane Smith".data
    (by decide) (by decide)).1

theorem companyGo_sentinel (ks : List String) (lower : String)
    (h : ∀ k ∈ ks, isSubstr k lower = false) : companyGo ks lower = companySentinel := by
  induction ks with
  | nil => rfl
  | cons k ks ih =>
    have hk : ¬ (isSubstr k lower = true) := by
      simp [h k (List.mem_cons_self k ks)]
    simp only [companyGo, if_neg hk]
    exact ih (fun k2 hk2 => h k2 (List.mem_cons_of_mem k hk2))

theorem companyGo_find (ks : List String) (lower : String) :
    companyGo ks lower =
      match ks.find? (fun k => isSubstr k lower &&
          decide (strOf (prefixBefore k.data lower.data) ≠ "")) with
      | some k => pyTitle (pyStrip (strOf (prefixBefore k.data lower.data)))
      | none => companySentinel := by
  induction ks with
  | nil => rfl
  | cons k ks ih =>
    by_cases hs : isSubstr k lower = true
    · by_cases hp : strOf (prefixBefore k.data lower.data) ≠ ""
      · have hfind : (k :: ks).find? (fun k => isSubstr k lower &&
            decide (strOf (prefixBefore k.data lower.data) ≠ "")) = some k :=
          List.find?_cons_of_pos _ (by simp [hs, hp])
        rw [hfind]
        simp only [companyGo, if_pos hs, if_pos hp]
      · have hfind : (k :: ks).find? (fun k => isSubstr k lower &&
            decide (strOf (prefixBefore k.data lower.data) ≠ "")) =
            ks.find? (fun k => isSubstr k lower &&
              decide (strOf (prefixBefore k.data lower.data) ≠ "")) :=
          List.find?_cons_of_neg _ (by simp [hp])
        rw [hfind]
        simp only [companyGo, if_pos hs, if_neg hp]
        exact ih
    · have hfind : (k :: ks).find? (fun k => isSubstr k lower &&
          decide (strOf (prefixBefore k.data lower.data) ≠ "")) =
          ks.find? (fun k => isSubstr k lower &&
            decide (strOf (prefixBefore k.data lower.data) ≠ "")) :=
        List.find?_cons_of_neg _ (by simp [hs])
      rw [hfind]
      simp only [companyGo, if_neg hs]
      exact ih

/-- Claim C9 (corrected): a title containing none of the five verbs in its
lowercased form yields the fixed sentinel, and the example title does. In
full, the extractor is characterized exactly: scanning the verbs in the
fixed list order, the FIRST verb that occurs in the lowercased title with
a nonempty part before its first occurrence determines the result, namely
that part trimmed and title-cased; when no verb qualifies (none occurs,
or each occurring verb has an empty preceding part, as in the
counterexample) the result is the sentinel. In particular a verb with a
nonempty preceding part forces a non-sentinel return, as in the Acme Corp
example. -/
theorem C9_amended (title : String)
    (h : ∀ k ∈ companyKeywords, isSubstr k (pyLower title) = false) :
    extract_company title = companySentinel ∧
    extract_company "XYZ Files Report" = companySentinel ∧
    (∀ t : String, extract_company t =
      match companyKeywords.find? (fun k => isSubstr k (pyLower t) &&
          decide (strOf (prefixBefore k.data (pyLower t).data) ≠ "")) with
      | some k => pyTitle (pyStrip (strOf (prefixBefore k.data (pyLower t).data)))
      | none => companySentinel) ∧
    extract_company "Acme Corp appoints Jane Smith as CFO" = "Acme Corp" :=
  ⟨companyGo_sentinel companyKeywords (pyLower title) h, by decide,
    fun t => companyGo_find companyKeywords (pyLower t), by decide⟩

/-- Witness for C9: the sentinel example and a concrete non-sentinel
extraction. -/
theorem C9_witness :
    extract_company "XYZ Files Report" = companySentinel ∧
    extract_company "Acme Corp appoints Jane Smith as CFO" = "Acme Corp" :=
  ⟨(C9_amended "XYZ Files Report" (by decide)).1,
   (C9_amended "XYZ Files Report" (by decide)).2.2.2⟩

theorem sanitize_chars (s : String) (h : ∀ c ∈ s.data, isPySpace c = true → c = ' ') :
    ∀ c ∈ (sanitize_filename s).data, isWordChar c = true ∨ c = '-' := by
  intro c hc
  have hc0 : c ∈ ((pyStripL (s.data.filter keepChar)).map spaceToUnderscore).take 50 := hc
  have hc1 := mem_of_mem_take hc0
  rcases List.mem_map.mp hc1 with ⟨b, hb, rfl⟩
  have hb1 := mem_of_mem_pyStripL hb
  have hb2 := List.mem_filter.mp hb1
  by_cases hbs : b = ' '
  · subst hbs
    exact Or.inl (by decide)
  · have hfb : spaceToUnderscore b = b := by
      unfold spaceToUnderscore
      rw [if_neg (by simpa using hbs)]
    rw [hfb]
    have hkb : (isWordChar b = true ∨ isPySpace b = true) ∨ b = '-' := by
      simpa [keepChar, or_assoc] using hb2.2
    rcases hkb with (hw | hsp) | hd
    · exact Or.inl hw
    · exact absurd (h b hb2.1 hsp) hbs
    · exact Or.inr hd

theorem sanitize_len (s : String) : (sanitize_filename s).length ≤ 50 := by
  show (((pyStripL (s.data.filter keepChar)).map spaceToUnderscore).take 50).length ≤ 50
  exact length_take_le 50 _

theorem sanitize_fix (t : String)
    (ht : ∀ c ∈ t.data, isWordChar c = true ∨ c = '-')
    (hlen : t.data.length ≤ 50) : sanitize_filename t = t := by
  have hnosp : ∀ c ∈ t.data, isPySpace c = false := fun c hc => not_space_of_word (ht c hc)
  have hkeep : ∀ c ∈ t.data, keepChar c = true := by
    intro c hc
    rcases ht c hc with hw | rfl
    · simp [keepChar, hw]
    · decide
  have hmapid : ∀ c ∈ t.data, spaceToUnderscore c = c := by
    intro c hc
    have hne : c ≠ ' ' := by
      intro he
      subst he
      exact absurd (hnosp ' ' hc) (by decide)
    unfold spaceToUnderscore
    rw [if_neg (by simpa using hne)]
  unfold sanitize_filename
  rw [filter_eq_self_of hkeep, pyStripL_eq_self hnosp, map_eq_self_of hmapid,
    List.take_of_length_le hlen]
  cases t
  rfl

/-- Claim C4 (corrected): the sanitized output never exceeds 50
characters; and whenever the whitespace of the input consists only of
plain spaces, sanitization is idempotent and its output contains only word
characters, underscores and hyphens. Other whitespace (for example a tab)
survives into the output and can defeat idempotence at the truncation
boundary, as the counterexample shows. -/
theorem C4_amended (s : String)
    (h : ∀ c ∈ s.data, isPySpace c = true → c = ' ') :
    (∀ t : String, (sanitize_filename t).length ≤ 50) ∧
    sanitize_filename (sanitize_filename s) = sanitize_filename s ∧
    ∀ c ∈ (sanitize_filename s).data, isWordChar c = true ∨ c = '-' := by
  refine ⟨sanitize_len, ?_, sanitize_chars s h⟩
  exact sanitize_fix (sanitize_filename s) (sanitize_chars s h) (sanitize_len s)

/-- Witness for C4 at a concrete name whose whitespace is plain spaces. -/
theorem C4_witness :
    sanitize_filename (sanitize_filename "Jane  Smith-Jones 3rd!!") =
      sanitize_filename "Jane  Smith-Jones 3rd!!" :=
  (C4_amended "Jane  Smith-Jones 3rd!!" (by decide)).2.1

end CFOMonitor
